import Mathlib

/-!
Shallow embedding of the streaming chat client of this repository
(`src/frontend/app/page.tsx`, functions `handleSubmit` and
`checkServerStatus`; `src/unnamed/part_000` holds an earlier revision of
the same component with identical stream-consumption logic).

Modelling conventions:
* The platform primitive `JSON.parse` is external to the repository; stream
  processing is parameterised over a function `parse : String → Option Json`
  (`none` models a thrown `SyntaxError`).  `Json` values carry exactly the
  observations the code makes: the `typeof parsed === 'object' && parsed != null`
  test and string-typed field access.
* `TextDecoder.decode(value, \x7bstream: true\x7d)` correctly buffers partial
  multi-byte sequences, so each `reader.read()` result is modelled as the
  decoded text of that read; a byte split at a character boundary is a split
  of this text.
* React state setters are modelled as pure updates of an explicit state
  record; `reader.cancel()` is modelled by the `cancelled` flag of the loop
  state (after a cancel, `reader.read()` resolves as done, ending the loop).
-/

namespace NigerianLawsAI

/-- JSON values as produced by the platform `JSON.parse`. -/
inductive Json where
  | null
  | bool (b : Bool)
  | num (n : Int)
  | str (s : String)
  | arr (elems : List Json)
  | obj (fields : List (String × Json))

/-- Field lookup on a JSON object, duplicate keys resolved as `JSON.parse`
does (the last occurrence wins); `none` models the JS value `undefined`.
Field access on any non-object JSON value yields `undefined`. -/
def Json.getField : Json → String → Option Json
  | .obj fields, key => go fields key
  | _, _ => none
where go : List (String × Json) → String → Option Json
  | [], _ => none
  | (k, v) :: rest, key =>
    match go rest key with
    | some v' => some v'
    | none => if k = key then some v else none

/-- `typeof parsed === 'object' && parsed != null`: true exactly for JSON
objects and arrays (JS `typeof null` is also `'object'` but the `!= null`
conjunct excludes it). -/
def Json.isObjectNonNull : Json → Bool
  | .obj _ => true
  | .arr _ => true
  | _ => false

/-- The string value of field `k` when it is present and a string
(`typeof j.k === 'string'`), else `none`. -/
def Json.strField (j : Json) (k : String) : Option String :=
  match j.getField k with
  | some (.str s) => some s
  | _ => none

/-- The whitespace characters recognised by the JS `String.prototype.trim`
(the ASCII subset; none of the strings handled here contain the further
Unicode space characters). -/
def isJsWhitespace (c : Char) : Bool :=
  c = ' ' || c = '\t' || c = '\n' || c = '\r' || c = '\x0b' || c = '\x0c'

/-- JS `s.trim()`: strip leading and trailing whitespace. -/
def jsTrim (s : String) : String :=
  String.mk (((s.toList.dropWhile isJsWhitespace).reverse.dropWhile isJsWhitespace).reverse)

/-- Character-list core of JS `s.startsWith(p)`. -/
def charsStartWith : List Char → List Char → Bool
  | [], _ => true
  | _, [] => false
  | p :: ps, c :: cs => p = c && charsStartWith ps cs

/-- JS `s.startsWith(p)`. -/
def jsStartsWith (p s : String) : Bool :=
  charsStartWith p.toList s.toList

/-- JS `s.substring(n)` (for the BMP text handled here, code-unit and
character indices coincide). -/
def jsSubstringFrom (n : Nat) (s : String) : String :=
  String.mk (s.toList.drop n)

/-- Character-list core of JS `s.split('\n')`: JS yields the (possibly
empty) segments between newline characters, so `""` splits to `[""]` and a
trailing newline yields a trailing `""` segment. -/
def splitNlChars : List Char → List (List Char)
  | [] => [[]]
  | c :: cs =>
    if c = '\n' then [] :: splitNlChars cs
    else
      match splitNlChars cs with
      | g :: gs => (c :: g) :: gs
      | [] => [[c]]

/-- JS `s.split('\n')`. -/
def jsSplitNl (s : String) : List String :=
  (splitNlChars s.toList).map String.mk

/-- `interface Message` of `page.tsx`: the optional `isError` flag defaults
to absent, rendered the same as `false`. -/
inductive Role where
  | user
  | assistant
deriving DecidableEq

structure Message where
  role : Role
  content : String
  isError : Bool := false
deriving DecidableEq

/-- The local state of the stream-consumption loop in `handleSubmit`:
the message log (`messages` React state), the `accumulatedContent`
variable, and whether `reader.cancel()` has been called. -/
structure LoopState where
  messages : List Message
  accumulated : String
  cancelled : Bool
deriving DecidableEq

/-- The `setMessages` updater of the `chunk` branch (page.tsx lines
123-132): replace the last message with the full accumulator when the last
message exists and is an assistant message; otherwise leave the log
unchanged. -/
def applyChunkUpdate (accumulated : String) (prev : List Message) : List Message :=
  match prev.getLast? with
  | some lastMessage =>
    if lastMessage.role = .assistant then
      prev.dropLast ++ [{ lastMessage with content := accumulated }]
    else prev
  | none => prev

/-- The `setMessages` updater of the `error` branch (page.tsx lines
135-144): when the last message is an assistant message, replace it with
the accumulator followed by the error text and set `isError`; otherwise
append a fresh error-flagged assistant message. -/
def applyErrorUpdate (accumulated err : String) (prev : List Message) : List Message :=
  match prev.getLast? with
  | some lastMessage =>
    if lastMessage.role = .assistant then
      prev.dropLast ++
        [{ lastMessage with content := accumulated ++ "\n\nError: " ++ err, isError := true }]
    else prev ++ [{ role := .assistant, content := "Error: " ++ err, isError := true }]
  | none => prev ++ [{ role := .assistant, content := "Error: " ++ err, isError := true }]

/-- The `setMessages` updater of the outer `catch` block (page.tsx lines
160-169), applied when the fetch or a read throws. -/
def applyCatchUpdate (emsg : String) (prev : List Message) : List Message :=
  match prev.getLast? with
  | some lastMessage =>
    if lastMessage.role = .assistant then
      prev.dropLast ++
        [{ lastMessage with
             content := "Error: Could not stream response. Details: " ++ emsg,
             isError := true }]
    else prev ++ [{ role := .assistant,
                    content := "Error: Could not stream response. Details: " ++ emsg,
                    isError := true }]
  | none => prev ++ [{ role := .assistant,
                       content := "Error: Could not stream response. Details: " ++ emsg,
                       isError := true }]

/-- Processing of one non-blank decoded line (page.tsx lines 114-154).
A line not starting with `"data: "` is ignored; otherwise the remainder is
parsed as JSON (`none`, a thrown parse error, is logged and skipped), a
non-object result is logged and skipped, a `chunk` event with string
content extends the accumulator and rewrites the open assistant message,
an `error` event with string error text rewrites the log via
`applyErrorUpdate` and cancels the read, and any other shape is ignored. -/
def processLine (parse : String → Option Json) (line : String) (st : LoopState) : LoopState :=
  if jsStartsWith "data: " line then
    match parse (jsSubstringFrom 6 line) with
    | none => st
    | some parsed =>
      if parsed.isObjectNonNull then
        if parsed.strField "type" = some "chunk" then
          match parsed.strField "content" with
          | some c =>
            let acc := st.accumulated ++ c
            { st with accumulated := acc, messages := applyChunkUpdate acc st.messages }
          | none => st
        else if parsed.strField "type" = some "error" then
          match parsed.strField "error" with
          | some e =>
            { st with messages := applyErrorUpdate st.accumulated e st.messages,
                      cancelled := true }
          | none => st
        else st
      else st
  else st

/-- The `for (const line of lines)` loop: the `break` after
`reader.cancel()` skips the remaining lines of the current read. -/
def processLines (parse : String → Option Json) : List String → LoopState → LoopState
  | [], st => st
  | l :: ls, st =>
    if st.cancelled then st
    else processLines parse ls (processLine parse l st)

/-- `chunk.split('\n').filter(line => line.trim() !== '')` applied to the
decoded text of one read. -/
def chunkLines (chunk : String) : List String :=
  (jsSplitNl chunk).filter (fun l => jsTrim l != "")

/-- The `while (true)` read loop: each `reader.read()` yields the decoded
text of one read; after `reader.cancel()` the next read resolves as done,
so a cancelled state consumes no further reads. -/
def processReads (parse : String → Option Json) : List String → LoopState → LoopState
  | [], st => st
  | r :: rs, st =>
    if st.cancelled then st
    else processReads parse rs (processLines parse (chunkLines r) st)

/-- The component state touched by `handleSubmit`: `messages`, `input` and
`loading` (the busy flag). -/
structure ChatState where
  messages : List Message
  input : String
  loading : Bool
deriving DecidableEq

/-- The environment's behaviour for one submission, as observed by
`handleSubmit`: a successful fetch delivering a list of reads; a fetch
delivering some reads after which `reader.read()` throws; or a request
that throws (network failure, or a non-ok / bodyless response, which the
code converts into a thrown `Error`). -/
inductive FetchOutcome where
  | ok (reads : List String)
  | readThrow (reads : List String) (emsg : String)
  | reqError (emsg : String)

/-- The observable result of one `handleSubmit` call: the final component
state, whether an HTTP request was issued, and the sequence of values
written to the `loading` flag, in order. -/
structure SubmitResult where
  state : ChatState
  requested : Bool
  loadingWrites : List Bool
deriving DecidableEq

/-- Run the stream-consumption loop from a fresh accumulator over the
given reads. -/
def runStream (parse : String → Option Json) (reads : List String)
    (msgs : List Message) : LoopState :=
  processReads parse reads { messages := msgs, accumulated := "", cancelled := false }

/-- `handleSubmit` (page.tsx lines 71-173).  The guard rejects blank input
and re-entrant calls while loading.  Otherwise: the input is cleared,
`loading` is set, a user message and an empty assistant message are
appended, the POST is issued and the stream consumed; any throw is caught
by `applyCatchUpdate` (when the stream was cancelled by an error event, the
cancelled reader's reads resolve as done, so no read throw occurs); the
`finally` block resets `loading`. -/
def submit (parse : String → Option Json) (st : ChatState)
    (outcome : FetchOutcome) : SubmitResult :=
  if jsTrim st.input = "" ∨ st.loading = true then
    { state := st, requested := false, loadingWrites := [] }
  else
    let userQuery := st.input
    let msgs2 := st.messages ++ [{ role := .user, content := userQuery }]
        ++ [{ role := .assistant, content := "" }]
    let finalMsgs :=
      match outcome with
      | .ok reads => (runStream parse reads msgs2).messages
      | .readThrow reads emsg =>
        let s := runStream parse reads msgs2
        if s.cancelled then s.messages else applyCatchUpdate emsg s.messages
      | .reqError emsg => applyCatchUpdate emsg msgs2
    { state := { messages := finalMsgs, input := "", loading := false },
      requested := true,
      loadingWrites := [true, false] }

/-- One poll attempt of `checkServerStatus` (page.tsx lines 44-64) as
observed by the code: the fetch or `response.json()` threw, or a response
arrived with an ok flag and the (string) `status` field of its JSON body. -/
inductive PollOutcome where
  | fail
  | respond (ok : Bool) (status : Option String)

/-- `response.ok && data.status === 'ready'`; a thrown fetch or JSON parse
never reaches the check. -/
def pollReady : PollOutcome → Bool
  | .fail => false
  | .respond ok status => ok && status == some "ready"

/-- The observable behaviour of the polling loop over a window of poll
outcomes: every value written to `isServerReady`, the number of fetches
issued, and the scheduled delays (ms) between consecutive fetches. -/
structure PollResult where
  readyWrites : List Bool
  fetches : Nat
  delays : List Nat
deriving DecidableEq

/-- `checkServerStatus`: fetch `/health`; on ok + `status === 'ready'` set
the readiness flag and return; otherwise (including swallowed exceptions)
schedule the next attempt after 2000 ms.  The argument is the window of
outcomes the environment produces; an exhausted window models a poller
still running. -/
def checkServerStatus : List PollOutcome → PollResult
  | [] => { readyWrites := [], fetches := 0, delays := [] }
  | o :: os =>
    if pollReady o then { readyWrites := [true], fetches := 1, delays := [] }
    else
      let r := checkServerStatus os
      { readyWrites := r.readyWrites, fetches := r.fetches + 1, delays := 2000 :: r.delays }

/-- `process.env` as a finite map; `none` models an unset variable. -/
def envLookup (env : List (String × String)) (name : String) : Option String :=
  match env with
  | [] => none
  | (k, v) :: rest => if k = name then some v else envLookup rest name

/-- JS template-literal interpolation of a possibly-undefined value. -/
def envString : Option String → String
  | some s => s
  | none => "undefined"

/-- The URL of the health poll: built from `NEXT_PUBLIC_BACKEND_URL`
(page.tsx line 47-48). -/
def healthRequestUrl (env : List (String × String)) : String :=
  envString (envLookup env "NEXT_PUBLIC_BACKEND_URL") ++ "/health"

/-- The URL of the ask request: built from `NEXT_PUBLIC_API_URL`
(page.tsx line 86-87). -/
def askRequestUrl (env : List (String × String)) : String :=
  envString (envLookup env "NEXT_PUBLIC_API_URL") ++ "/ask"

/-- The log shape during streaming: all earlier messages untouched, a
single open assistant message at the end. -/
def openAssistantShape (base msgs : List Message) : Prop :=
  ∃ a : Message, a.role = Role.assistant ∧ msgs = base ++ [a]

/-- The JSON payload text of a chunk event with content `c`, as the backend
serialises it. -/
def chunkPayload (c : String) : String :=
  "\x7b\"type\": \"chunk\", \"content\": \"" ++ c ++ "\"\x7d"

/-- The `Json` value `JSON.parse` returns for `chunkPayload c`. -/
def chunkJson (c : String) : Json :=
  .obj [("type", .str "chunk"), ("content", .str c)]

/-- The JSON payload text of an error event with message `e`. -/
def errorPayload (e : String) : String :=
  "\x7b\"type\": \"error\", \"error\": \"" ++ e ++ "\"\x7d"

/-- The `Json` value `JSON.parse` returns for `errorPayload e`. -/
def errorJson (e : String) : Json :=
  .obj [("type", .str "error"), ("error", .str e)]

/-- A concrete model of `JSON.parse` restricted to the two chunk payloads
of the boundary-splitting scenario; every other string (in particular any
truncated line fragment) fails to parse. -/
def splitScenarioParse (s : String) : Option Json :=
  if s = chunkPayload "Hello, " then some (chunkJson "Hello, ")
  else if s = chunkPayload "world" then some (chunkJson "world")
  else none

/-- The stream body of the scenario, delivered in a single read: two chunk
events on their own lines. -/
def alignedReads : List String :=
  ["data: " ++ chunkPayload "Hello, " ++ "\n" ++ "data: " ++ chunkPayload "world" ++ "\n"]

/-- The same bytes delivered in two reads, the boundary falling inside the
`"data: "` prefix of the second line (between `"da"` and `"ta: "`). -/
def splitReads : List String :=
  ["data: " ++ chunkPayload "Hello, " ++ "\nda", "ta: " ++ chunkPayload "world" ++ "\n"]

/-! Helper lemmas. -/

/-- Once the read has been cancelled, the line loop consumes nothing. -/
theorem processLines_of_cancelled (parse : String → Option Json) (ls : List String)
    (st : LoopState) (h : st.cancelled = true) : processLines parse ls st = st := by
  cases ls <;> simp [processLines, h]

/-- Once the read has been cancelled, the read loop consumes nothing. -/
theorem processReads_of_cancelled (parse : String → Option Json) (rs : List String)
    (st : LoopState) (h : st.cancelled = true) : processReads parse rs st = st := by
  cases rs <;> simp [processReads, h]

/-- The chunk updater on a log ending in an assistant message replaces
exactly that message's content. -/
theorem applyChunkUpdate_concat (acc : String) (base : List Message) (a : Message)
    (ha : a.role = Role.assistant) :
    applyChunkUpdate acc (base ++ [a]) = base ++ [{ a with content := acc }] := by
  unfold applyChunkUpdate
  rw [List.getLast?_concat]
  simp [ha, List.dropLast_concat]

/-- The error updater on a log ending in an assistant message replaces
exactly that message, appending the error text to the accumulator. -/
theorem applyErrorUpdate_concat (acc e : String) (base : List Message) (a : Message)
    (ha : a.role = Role.assistant) :
    applyErrorUpdate acc e (base ++ [a]) =
      base ++ [{ a with content := acc ++ "\n\nError: " ++ e, isError := true }] := by
  unfold applyErrorUpdate
  rw [List.getLast?_concat]
  simp [ha, List.dropLast_concat]

/-! Claim theorems. -/

/-- C7: a decoded stream line that does not begin with the literal prefix
`"data: "` leaves the loop state — message log, content accumulator and
cancelled flag — unchanged. -/
theorem c7_non_data_line_ignored (parse : String → Option Json) (line : String)
    (st : LoopState) (h : jsStartsWith "data: " line = false) :
    processLine parse line st = st := by
  unfold processLine
  simp [h]

/-- C7 witness: the concrete line `"event: ping"` is ignored. -/
theorem c7_non_data_line_ignored_witness :
    processLine (fun _ => none) "event: ping"
      { messages := [{ role := .assistant, content := "hi" }],
        accumulated := "hi", cancelled := false } =
      { messages := [{ role := .assistant, content := "hi" }],
        accumulated := "hi", cancelled := false } :=
  c7_non_data_line_ignored (fun _ => none) "event: ping" _ (by decide)

/-- C6: a line that starts with `"data: "` but whose remainder fails JSON
parsing, or parses to a value that is not a non-null object, leaves the loop
state unchanged, and the line loop continues: the remaining lines are
processed exactly as if the malformed line were absent. -/
theorem c6_malformed_json_skipped (parse : String → Option Json) (line : String)
    (st : LoopState) (hp : jsStartsWith "data: " line = true)
    (hbad : parse (jsSubstringFrom 6 line) = none ∨
      ∃ j, parse (jsSubstringFrom 6 line) = some j ∧ j.isObjectNonNull = false) :
    processLine parse line st = st ∧
    (st.cancelled = false →
      ∀ ls, processLines parse (line :: ls) st = processLines parse ls st) := by
  have hid : processLine parse line st = st := by
    unfold processLine
    rcases hbad with h | ⟨j, hj, hobj⟩
    · simp [hp, h]
    · simp [hp, hj, hobj]
  refine ⟨hid, fun hc ls => ?_⟩
  show (if st.cancelled then st else processLines parse ls (processLine parse line st)) = _
  rw [hc, hid]
  simp

/-- C6 witness: a concrete malformed line is skipped and the following
valid chunk line is still applied. -/
theorem c6_malformed_json_skipped_witness :
    processLines splitScenarioParse
      ["data: not json", "data: " ++ chunkPayload "Hello, "]
      { messages := [{ role := .assistant, content := "" }],
        accumulated := "", cancelled := false } =
    processLines splitScenarioParse
      ["data: " ++ chunkPayload "Hello, "]
      { messages := [{ role := .assistant, content := "" }],
        accumulated := "", cancelled := false } :=
  (c6_malformed_json_skipped splitScenarioParse "data: not json" _
    (by decide) (Or.inl rfl)).2 rfl _

/-- C8: a call made with input that is empty after trimming, or while a
submission is in flight, changes no state — message log, input text and
busy flag are returned unchanged — and issues no HTTP request. -/
theorem c8_guard_rejects_blank_or_busy (parse : String → Option Json)
    (st : ChatState) (outcome : FetchOutcome)
    (h : jsTrim st.input = "" ∨ st.loading = true) :
    submit parse st outcome =
      { state := st, requested := false, loadingWrites := [] } := by
  unfold submit
  rw [if_pos h]

/-- C8 witness: whitespace-only input is rejected with no state change and
no request. -/
theorem c8_guard_witness :
    submit (fun _ => none) { messages := [], input := "  ", loading := false }
      (.ok ["data: x"]) =
    { state := { messages := [], input := "  ", loading := false },
      requested := false, loadingWrites := [] } :=
  c8_guard_rejects_blank_or_busy (fun _ => none) _ _ (Or.inl (by decide))

/-- C4: the two requests are built from two different environment
variables (`NEXT_PUBLIC_BACKEND_URL` for the health poll, page.tsx line 47;
`NEXT_PUBLIC_API_URL` for the ask request, page.tsx line 86), so in an
environment where the two variables differ — or where only one is set —
the health poll and the ask request target different base URLs, violating
the single-base-URL claim. -/
theorem c4_divergent_backend_env_vars :
    healthRequestUrl
        [("NEXT_PUBLIC_BACKEND_URL", "http://backend-a:8000"),
         ("NEXT_PUBLIC_API_URL", "http://backend-b:9000")] =
      "http://backend-a:8000/health" ∧
    askRequestUrl
        [("NEXT_PUBLIC_BACKEND_URL", "http://backend-a:8000"),
         ("NEXT_PUBLIC_API_URL", "http://backend-b:9000")] =
      "http://backend-b:9000/ask" ∧
    askRequestUrl [("NEXT_PUBLIC_BACKEND_URL", "http://backend:8000")] =
      "undefined/ask" := by
  refine ⟨by decide, by decide, by decide⟩

/-- C3 counterexample: a call made while a submission is in flight
(`loading = true`) returns with the busy flag still true, refuting the
claim that the busy flag is false when submit returns for every execution,
including rejected re-entrant calls. -/
theorem c3_busy_reject_returns_busy :
    (submit (fun _ => none) { messages := [], input := "Hello", loading := true }
      (.ok [])).state.loading = true := by decide

/-- C3 (amended): every execution that passes the guard writes the busy
flag to true and back to false exactly once and returns with it false;
a rejected call (blank input or already busy) performs no busy-flag write
and returns the flag unchanged — in particular a call rejected while busy
returns with the flag still true, owned by the in-flight submission. -/
theorem c3_busy_flag_reset (parse : String → Option Json) (st : ChatState)
    (outcome : FetchOutcome) :
    ((jsTrim st.input = "" ∨ st.loading = true) →
      (submit parse st outcome).loadingWrites = [] ∧
      (submit parse st outcome).state.loading = st.loading) ∧
    (¬ (jsTrim st.input = "" ∨ st.loading = true) →
      (submit parse st outcome).loadingWrites = [true, false] ∧
      (submit parse st outcome).state.loading = false) := by
  constructor
  · intro h
    unfold submit
    rw [if_pos h]
    exact ⟨rfl, rfl⟩
  · intro h
    unfold submit
    rw [if_neg h]
    exact ⟨rfl, rfl⟩

/-- C3 witness: a non-blank, non-busy submission writes the busy flag to
true then to false exactly once and ends with it false. -/
theorem c3_busy_flag_reset_witness :
    (submit (fun _ => none) { messages := [], input := "hi", loading := false }
      (.ok [])).loadingWrites = [true, false] ∧
    (submit (fun _ => none) { messages := [], input := "hi", loading := false }
      (.ok [])).state.loading = false :=
  (c3_busy_flag_reset (fun _ => none)
    { messages := [], input := "hi", loading := false } (.ok [])).2 (by decide)

/-- C10: an `error` event processed while the last element of the log is
not an assistant message (or the log is empty) appends a fresh assistant
message whose content is exactly `"Error: " ++ X` — without the
accumulator and without the `"\n\nError: "` separator — flagged
`isError = true`; the accumulator is unchanged and the read is cancelled. -/
theorem c10_error_without_open_assistant (parse : String → Option Json)
    (line X : String) (j : Json) (st : LoopState)
    (hp : jsStartsWith "data: " line = true)
    (hparse : parse (jsSubstringFrom 6 line) = some j)
    (hobj : j.isObjectNonNull = true)
    (htype : j.strField "type" = some "error")
    (herr : j.strField "error" = some X)
    (hlast : ∀ m, st.messages.getLast? = some m → m.role ≠ Role.assistant) :
    processLine parse line st =
      { st with
          messages := st.messages ++
            [{ role := .assistant, content := "Error: " ++ X, isError := true }],
          cancelled := true } := by
  unfold processLine applyErrorUpdate
  rw [hparse]
  simp only [hp, hobj, htype, herr, if_true]
  norm_num
  cases hL : st.messages.getLast? with
  | none => rfl
  | some m => simp [hlast m hL]

/-- C10 witness: an error event arriving when the last message is a user
message appends a bare `"Error: rate limited"` assistant message. -/
theorem c10_error_without_open_assistant_witness :
    processLine
      (fun s => if s = errorPayload "rate limited"
        then some (errorJson "rate limited") else none)
      ("data: " ++ errorPayload "rate limited")
      { messages := [{ role := .user, content := "X" }],
        accumulated := "", cancelled := false } =
      { messages := [{ role := .user, content := "X" },
          { role := .assistant, content := "Error: rate limited", isError := true }],
        accumulated := "", cancelled := true } :=
  c10_error_without_open_assistant _ _ "rate limited" (errorJson "rate limited") _
    (by decide) rfl rfl rfl rfl
    (by intro m hm; cases hm; decide)

/-- C2: a well-formed error event processed while the last log element is
an assistant message rewrites that message to the accumulated content
followed by `"\n\nError: " ++ X`, flags it `isError`, and cancels the read
(the `cancelled` flag models `reader.cancel()`); from the resulting state
no later line of the current read and no later read — chunk events
included — changes anything. -/
theorem c2_error_event_terminates_stream (parse : String → Option Json)
    (line X : String) (j : Json) (st : LoopState) (lastM : Message)
    (hp : jsStartsWith "data: " line = true)
    (hparse : parse (jsSubstringFrom 6 line) = some j)
    (hobj : j.isObjectNonNull = true)
    (htype : j.strField "type" = some "error")
    (herr : j.strField "error" = some X)
    (hlast : st.messages.getLast? = some lastM)
    (hrole : lastM.role = Role.assistant) :
    processLine parse line st =
      { messages := st.messages.dropLast ++
          [{ lastM with content := st.accumulated ++ "\n\nError: " ++ X, isError := true }],
        accumulated := st.accumulated,
        cancelled := true } ∧
    (∀ ls, processLines parse ls (processLine parse line st) =
      processLine parse line st) ∧
    (∀ rs, processReads parse rs (processLine parse line st) =
      processLine parse line st) := by
  have heq : processLine parse line st =
      { messages := st.messages.dropLast ++
          [{ lastM with content := st.accumulated ++ "\n\nError: " ++ X, isError := true }],
        accumulated := st.accumulated,
        cancelled := true } := by
    unfold processLine applyErrorUpdate
    rw [hparse]
    simp only [hp, hobj, htype, herr, if_true]
    norm_num
    rw [hlast]
    simp [hrole]
  refine ⟨heq, fun ls => ?_, fun rs => ?_⟩
  · rw [heq]; exact processLines_of_cancelled parse ls _ rfl
  · rw [heq]; exact processReads_of_cancelled parse rs _ rfl

/-- C2 witness: the error event `"rate limited"` after the partial content
`"Partial answer"`, followed by a queued chunk line that is never
applied. -/
theorem c2_error_event_terminates_stream_witness :
    processLine
      (fun s => if s = errorPayload "rate limited"
        then some (errorJson "rate limited") else none)
      ("data: " ++ errorPayload "rate limited")
      { messages := [{ role := .user, content := "X" },
          { role := .assistant, content := "Partial answer" }],
        accumulated := "Partial answer", cancelled := false } =
      { messages := [{ role := .user, content := "X" },
          { role := .assistant,
            content := "Partial answer\n\nError: rate limited", isError := true }],
        accumulated := "Partial answer", cancelled := true } ∧
    processReads
      (fun s => if s = errorPayload "rate limited"
        then some (errorJson "rate limited") else none)
      ["data: " ++ chunkPayload "more" ++ "\n"]
      (processLine
        (fun s => if s = errorPayload "rate limited"
          then some (errorJson "rate limited") else none)
        ("data: " ++ errorPayload "rate limited")
        { messages := [{ role := .user, content := "X" },
            { role := .assistant, content := "Partial answer" }],
          accumulated := "Partial answer", cancelled := false }) =
      processLine
        (fun s => if s = errorPayload "rate limited"
          then some (errorJson "rate limited") else none)
        ("data: " ++ errorPayload "rate limited")
        { messages := [{ role := .user, content := "X" },
            { role := .assistant, content := "Partial answer" }],
          accumulated := "Partial answer", cancelled := false } := by
  have h := c2_error_event_terminates_stream
    (fun s => if s = errorPayload "rate limited"
      then some (errorJson "rate limited") else none)
    ("data: " ++ errorPayload "rate limited") "rate limited"
    (errorJson "rate limited")
    { messages := [{ role := .user, content := "X" },
        { role := .assistant, content := "Partial answer" }],
      accumulated := "Partial answer", cancelled := false }
    { role := .assistant, content := "Partial answer" }
    (by decide) rfl rfl rfl rfl rfl rfl
  exact ⟨h.1, h.2.2 ["data: " ++ chunkPayload "more" ++ "\n"]⟩

/-- C9: the readiness poller issues one fetch per outcome, swallowing
failures and non-ready responses with a 2000 ms delay before the next
attempt, until the first outcome that is HTTP-ok with body status
`"ready"`; there it writes `true` to the readiness flag exactly once and
stops (no further fetches, no further delays).  Over every outcome window
the flag is written at most once and never with `false`. -/
theorem c9_poller_behaviour :
    (∀ (os₁ : List PollOutcome) (o : PollOutcome) (os₂ : List PollOutcome),
      (∀ x ∈ os₁, pollReady x = false) → pollReady o = true →
      checkServerStatus (os₁ ++ o :: os₂) =
        { readyWrites := [true], fetches := os₁.length + 1,
          delays := List.replicate os₁.length 2000 }) ∧
    (∀ os : List PollOutcome,
      (checkServerStatus os).readyWrites = [] ∨
      (checkServerStatus os).readyWrites = [true]) := by
  constructor
  · intro os₁ o os₂ hfail hready
    induction os₁ with
    | nil => simp [checkServerStatus, hready]
    | cons x xs ih =>
      have hx : pollReady x = false := hfail x (List.mem_cons_self x xs)
      have ihh := ih (fun y hy => hfail y (List.mem_cons_of_mem x hy))
      simp [checkServerStatus, hx, ihh, List.replicate_succ]
  · intro os
    induction os with
    | nil => exact Or.inl rfl
    | cons o os ih =>
      cases hr : pollReady o with
      | true => exact Or.inr (by simp [checkServerStatus, hr])
      | false =>
        have : (checkServerStatus (o :: os)).readyWrites =
            (checkServerStatus os).readyWrites := by
          simp [checkServerStatus, hr]
        rw [this]
        exact ih

/-- C9 witness: two unsuccessful polls (a network failure and a not-ready
response) followed by a ready response: three fetches, two 2000 ms delays,
a single `true` write, and no poll of the fourth outcome. -/
theorem c9_poller_behaviour_witness :
    checkServerStatus
        ([PollOutcome.fail, PollOutcome.respond true (some "loading")] ++
          PollOutcome.respond true (some "ready") :: [PollOutcome.fail]) =
      { readyWrites := [true], fetches := 2 + 1,
        delays := List.replicate 2 2000 } :=
  c9_poller_behaviour.1
    [PollOutcome.fail, PollOutcome.respond true (some "loading")]
    (PollOutcome.respond true (some "ready")) [PollOutcome.fail]
    (by decide) (by decide)

/-- The message log after one line is the old log, a chunk update of it,
or an error update of it. -/
theorem processLine_messages_cases (parse : String → Option Json) (l : String)
    (st : LoopState) :
    (processLine parse l st).messages = st.messages ∨
    (∃ acc, (processLine parse l st).messages = applyChunkUpdate acc st.messages) ∨
    (∃ e, (processLine parse l st).messages =
      applyErrorUpdate st.accumulated e st.messages) := by
  unfold processLine
  split
  · split
    · exact Or.inl rfl
    · split
      · split
        · split
          · exact Or.inr (Or.inl ⟨_, rfl⟩)
          · exact Or.inl rfl
        · split
          · split
            · exact Or.inr (Or.inr ⟨_, rfl⟩)
            · exact Or.inl rfl
          · exact Or.inl rfl
      · exact Or.inl rfl
  · exact Or.inl rfl

/-- Processing one line preserves the open-assistant log shape: the
earlier messages are untouched and the log still ends in a single
assistant message. -/
theorem processLine_openShape (parse : String → Option Json) (l : String)
    (st : LoopState) (base : List Message) (a : Message)
    (ha : a.role = Role.assistant) (hm : st.messages = base ++ [a]) :
    ∃ a' : Message, a'.role = Role.assistant ∧
      (processLine parse l st).messages = base ++ [a'] := by
  rcases processLine_messages_cases parse l st with h | ⟨acc, h⟩ | ⟨e, h⟩
  · exact ⟨a, ha, by rw [h, hm]⟩
  · exact ⟨{ a with content := acc }, ha,
      by rw [h, hm, applyChunkUpdate_concat _ _ _ ha]⟩
  · exact ⟨{ a with content := st.accumulated ++ "\n\nError: " ++ e, isError := true },
      ha, by rw [h, hm, applyErrorUpdate_concat _ _ _ _ ha]⟩

/-- The line loop preserves the open-assistant log shape. -/
theorem processLines_openShape (parse : String → Option Json) (ls : List String) :
    ∀ (st : LoopState) (base : List Message) (a : Message),
      a.role = Role.assistant → st.messages = base ++ [a] →
      ∃ a' : Message, a'.role = Role.assistant ∧
        (processLines parse ls st).messages = base ++ [a'] := by
  induction ls with
  | nil => exact fun st base a ha hm => ⟨a, ha, hm⟩
  | cons l ls ih =>
    intro st base a ha hm
    have hstep : processLines parse (l :: ls) st =
        if st.cancelled then st
        else processLines parse ls (processLine parse l st) := rfl
    rw [hstep]
    by_cases hc : st.cancelled = true
    · rw [if_pos hc]; exact ⟨a, ha, hm⟩
    · rw [if_neg hc]
      obtain ⟨a₁, ha₁, hm₁⟩ := processLine_openShape parse l st base a ha hm
      exact ih _ base a₁ ha₁ hm₁

/-- The read loop preserves the open-assistant log shape. -/
theorem processReads_openShape (parse : String → Option Json) (rs : List String) :
    ∀ (st : LoopState) (base : List Message) (a : Message),
      a.role = Role.assistant → st.messages = base ++ [a] →
      ∃ a' : Message, a'.role = Role.assistant ∧
        (processReads parse rs st).messages = base ++ [a'] := by
  induction rs with
  | nil => exact fun st base a ha hm => ⟨a, ha, hm⟩
  | cons r rs ih =>
    intro st base a ha hm
    have hstep : processReads parse (r :: rs) st =
        if st.cancelled then st
        else processReads parse rs (processLines parse (chunkLines r) st) := rfl
    rw [hstep]
    by_cases hc : st.cancelled = true
    · rw [if_pos hc]; exact ⟨a, ha, hm⟩
    · rw [if_neg hc]
      obtain ⟨a₁, ha₁, hm₁⟩ :=
        processLines_openShape parse (chunkLines r) st base a ha hm
      exact ih _ base a₁ ha₁ hm₁

/-- C5: every update of the line loop and of the read loop keeps the log
in the open-assistant shape — everything before the single open assistant
message is untouched and the open assistant message is the last element —
and a guard-passing submission only appends the user message and the open
assistant message to the prior log before streaming into that shape. -/
theorem c5_open_assistant_invariant (parse : String → Option Json) :
    (∀ (ls : List String) (st : LoopState) (base : List Message) (a : Message),
      a.role = Role.assistant → st.messages = base ++ [a] →
      openAssistantShape base (processLines parse ls st).messages) ∧
    (∀ (rs : List String) (st : LoopState) (base : List Message) (a : Message),
      a.role = Role.assistant → st.messages = base ++ [a] →
      openAssistantShape base (processReads parse rs st).messages) ∧
    (∀ (st : ChatState) (reads : List String),
      ¬ (jsTrim st.input = "" ∨ st.loading = true) →
      openAssistantShape
        (st.messages ++ [{ role := Role.user, content := st.input }])
        (submit parse st (.ok reads)).state.messages) := by
  refine ⟨fun ls st base a ha hm => processLines_openShape parse ls st base a ha hm,
    fun rs st base a ha hm => processReads_openShape parse rs st base a ha hm,
    fun st reads h => ?_⟩
  have hsub : (submit parse st (.ok reads)).state.messages =
      (processReads parse reads
        { messages := st.messages ++ [{ role := Role.user, content := st.input }] ++
            [{ role := Role.assistant, content := "" }],
          accumulated := "", cancelled := false }).messages := by
    unfold submit
    rw [if_neg h]
    rfl
  rw [openAssistantShape, hsub]
  exact processReads_openShape parse reads
    { messages := st.messages ++ [{ role := Role.user, content := st.input }] ++
        [{ role := Role.assistant, content := "" }],
      accumulated := "", cancelled := false }
    (st.messages ++ [{ role := Role.user, content := st.input }])
    { role := Role.assistant, content := "" } rfl rfl

/-- C5 witness: a concrete submission over the aligned two-chunk stream
ends in the open-assistant shape over the appended user message. -/
theorem c5_open_assistant_invariant_witness :
    openAssistantShape
      [{ role := Role.user, content := "q" }]
      (submit splitScenarioParse { messages := [], input := "q", loading := false }
        (.ok alignedReads)).state.messages :=
  (c5_open_assistant_invariant splitScenarioParse).2.2
    { messages := [], input := "q", loading := false } alignedReads (by decide)

/-- C1: the consumption loop is not chunking-boundary independent.  The
same stream bytes — two chunk events with contents `"Hello, "` and
`"world"`, each on its own `data: ` line — yield the assistant content
`"Hello, world"` when delivered in one read, but `"Hello, "` when the read
boundary falls inside the `"data: "` prefix of the second line: the code
splits each read on newlines without buffering a partial trailing line
across reads, so both fragments of the split line lack the prefix and are
dropped. -/
theorem c1_chunk_boundary_dependence :
    String.join alignedReads = String.join splitReads ∧
    (submit splitScenarioParse
        { messages := [], input := "What is a Certificate of Occupancy?",
          loading := false }
        (.ok alignedReads)).state.messages =
      [{ role := .user, content := "What is a Certificate of Occupancy?" },
       { role := .assistant, content := "Hello, world" }] ∧
    (submit splitScenarioParse
        { messages := [], input := "What is a Certificate of Occupancy?",
          loading := false }
        (.ok splitReads)).state.messages =
      [{ role := .user, content := "What is a Certificate of Occupancy?" },
       { role := .assistant, content := "Hello, " }] := by
  refine ⟨by decide, by decide, by decide⟩

end NigerianLawsAI
